import Mathlib

/-!
Shallow embedding of the NVIDIA-Patcher repository's patch-verification
tool (`tools/verify_patch.py`) and backup manager (`src/backup_manager.py`),
with theorems settling the specification claims about them.

Files are modelled as byte lists (`List Nat`), the filesystem as a partial
map `String → Option (List Nat)`; a read failure or a missing file is
`none`.  The SHA-256 digest is an abstract parameter
`digest : List Nat → String`, since the claims only depend on digests being
a function of the content.
-/

namespace NV

/-- One expected byte change from the signature catalog: an
`expected_changes` entry in `PatchVerifier.__init__`. -/
structure ChangeRecord where
  offset : Nat
  original : List Nat
  patched : List Nat
deriving DecidableEq

/-- Signature information for one driver version: a value of the
`patch_signatures` dict (the `patch_offsets` list is informational and
unused by the verification logic, so it is omitted). -/
structure SignatureInfo where
  magic_bytes : List Nat
  expected_changes : List ChangeRecord
deriving DecidableEq

/-- Python byte slice `content[offset : offset + n]`. -/
def extractBytes (content : List Nat) (off n : Nat) : List Nat :=
  (content.drop off).take n

/-- Python `needle in haystack` on bytes: contiguous-subsequence test. -/
def bytesContains (needle haystack : List Nat) : Bool :=
  decide (needle <:+: haystack)

/-- One `expected_changes` entry check inside
`PatchVerifier._verify_patch_details`: the offset plus the patched length
must not exceed the file length, and the bytes at the offset must equal
the `patched` sequence. -/
def changeOk (content : List Nat) (c : ChangeRecord) : Bool :=
  decide (c.offset + c.patched.length ≤ content.length) &&
  decide (extractBytes content c.offset c.patched.length = c.patched)

/-- Embeds `PatchVerifier._verify_patch_details`: true iff every expected change
record checks out; the loop returns `False` at the first failure. -/
def verify_patch_details (content : List Nat) (sig : SignatureInfo) : Bool :=
  sig.expected_changes.all (changeOk content)

/-- Embeds `PatchVerifier._check_patch_signature`: look the version up in the
catalog (`False` when absent), search the content for the magic bytes
(`False` when absent), then run the detailed per-change check. -/
def check_patch_signature (catalog : String → Option SignatureInfo)
    (content : List Nat) (version : String) : Bool :=
  match catalog version with
  | none => false
  | some sig =>
    if bytesContains sig.magic_bytes content then verify_patch_details content sig
    else false

/-- The result dict built by `PatchVerifier.verify_module`; `found` models
the Python key named after file existence, and the `details` sub-dict is
omitted (no claim depends on it). -/
structure VerificationResult where
  found : Bool
  patched : Bool
  valid : Bool
  errors : List String
deriving DecidableEq

/-- Embeds `PatchVerifier.verify_module`: a missing file short-circuits with an
error entry and all flags false; otherwise `patched` and `valid` are both
set to true when `_check_patch_signature` succeeds and are both left false
when it fails, with no error recorded. -/
def verify_module (catalog : String → Option SignatureInfo)
    (fs : String → Option (List Nat)) (module_path version : String) :
    VerificationResult :=
  match fs module_path with
  | none => ⟨false, false, false, ["file does not exist: " ++ module_path]⟩
  | some content =>
    if check_patch_signature catalog content version then ⟨true, true, true, []⟩
    else ⟨true, false, false, []⟩

/-- The signature entry hard-coded for driver version `535.274.02`:
magic bytes `NVPT\x01\x00\x00\x00` and two expected changes, at offsets
`0x00123456` (`\x90\x90`) and `0x00123ABC` (`\x31\xC0\xC3`). -/
def sig_535 : SignatureInfo :=
  { magic_bytes := [78, 86, 80, 84, 1, 0, 0, 0]
    expected_changes :=
      [⟨1193046, [133, 192], [144, 144]⟩,
       ⟨1194684, [117, 10], [49, 192, 195]⟩] }

/-- The hard-coded `patch_signatures` catalog of `PatchVerifier.__init__`,
keyed by driver version. -/
def patch_signatures (version : String) : Option SignatureInfo :=
  if version = "535.274.02" then some sig_535 else none

/-- The aggregate dict built by `PatchVerifier.verify_driver_installation`. -/
structure FleetResult where
  driver_version : String
  modules_checked : Nat
  modules_patched : Nat
  modules_valid : Nat
  modules : List VerificationResult
  overall_status : String
deriving DecidableEq

/-- Embeds `PatchVerifier.verify_driver_installation`, parametrised by the list of
module paths that `_find_nvidia_modules` discovered: verifies every module,
counts the checked/patched/valid ones and classifies the overall status. -/
def verify_driver_installation (catalog : String → Option SignatureInfo)
    (fs : String → Option (List Nat)) (version : String)
    (module_paths : List String) : FleetResult :=
  let ms := module_paths.map (fun p => verify_module catalog fs p version)
  let checked := ms.length
  let patchedCount := (ms.filter (fun m => m.patched)).length
  let validCount := (ms.filter (fun m => m.valid)).length
  { driver_version := version
    modules_checked := checked
    modules_patched := patchedCount
    modules_valid := validCount
    modules := ms
    overall_status :=
      if checked = 0 then "not_found"
      else if validCount = checked then "fully_patched"
      else if 0 < patchedCount then "partially_patched"
      else "not_patched" }

/-! ### Concrete module images for the hard-coded `535.274.02` signature -/

/-- Bytes following the first patched region, shared by the valid and the
flipped module images: zero padding up to offset `0x123ABC` and the second
expected patched sequence `[49, 192, 195]` there. -/
def contentTail : List Nat := List.replicate 1636 0 ++ [49, 192, 195]

/-- A module image whose byte at offset `0x123456` is `b`: the magic bytes
at the start, zero padding, then `[b, 144]` at offset `0x123456`
(the first expected patched region), and `contentTail`.  `mkContent 144`
is fully patched for `sig_535`; `mkContent 145` differs from it in exactly
one byte, inside the first patched region. -/
def mkContent (b : Nat) : List Nat :=
  sig_535.magic_bytes ++ (List.replicate 1193038 0 ++ (b :: 144 :: contentTail))

theorem mkContent_length (b : Nat) : (mkContent b).length = 1194687 := by
  unfold mkContent contentTail
  rw [List.length_append, List.length_append, List.length_replicate, List.length_cons,
    List.length_cons, List.length_append, List.length_replicate]
  rfl

theorem extract_first (b : Nat) :
    extractBytes (mkContent b) 1193046 2 = [b, 144] := by
  unfold extractBytes mkContent
  rw [← List.append_assoc,
    List.drop_left' (by rw [List.length_append, List.length_replicate]; rfl)]
  rfl

theorem extract_second (b : Nat) :
    extractBytes (mkContent b) 1194684 3 = [49, 192, 195] := by
  unfold extractBytes mkContent contentTail
  have h : sig_535.magic_bytes ++
      (List.replicate 1193038 0 ++ (b :: 144 :: (List.replicate 1636 0 ++ [49, 192, 195]))) =
      (sig_535.magic_bytes ++ List.replicate 1193038 0 ++ b :: 144 :: List.replicate 1636 0) ++
        [49, 192, 195] := by
    simp only [List.append_assoc, List.cons_append]
  rw [h, List.drop_left' (by
    rw [List.length_append, List.length_append, List.length_replicate, List.length_cons,
      List.length_cons, List.length_replicate]
    rfl)]
  rfl

theorem magic_in_mkContent (b : Nat) :
    bytesContains sig_535.magic_bytes (mkContent b) = true := by
  unfold bytesContains
  rw [decide_eq_true_iff]
  exact ⟨[], List.replicate 1193038 0 ++ (b :: 144 :: contentTail), by
    rw [List.nil_append]; rfl⟩

theorem changeOk_first_valid :
    changeOk (mkContent 144) ⟨1193046, [133, 192], [144, 144]⟩ = true := by
  simp only [changeOk]
  rw [show ([144, 144] : List Nat).length = 2 from rfl, extract_first, mkContent_length]
  decide

theorem changeOk_first_flip :
    changeOk (mkContent 145) ⟨1193046, [133, 192], [144, 144]⟩ = false := by
  simp only [changeOk]
  rw [show ([144, 144] : List Nat).length = 2 from rfl, extract_first, mkContent_length]
  decide

theorem changeOk_second (b : Nat) :
    changeOk (mkContent b) ⟨1194684, [117, 10], [49, 192, 195]⟩ = true := by
  simp only [changeOk]
  rw [show ([49, 192, 195] : List Nat).length = 3 from rfl, extract_second, mkContent_length]
  decide

theorem details_valid : verify_patch_details (mkContent 144) sig_535 = true := by
  unfold verify_patch_details
  rw [show sig_535.expected_changes =
    [⟨1193046, [133, 192], [144, 144]⟩, ⟨1194684, [117, 10], [49, 192, 195]⟩] from rfl]
  rw [List.all_cons, List.all_cons, List.all_nil, changeOk_first_valid, changeOk_second]
  rfl

theorem details_flip : verify_patch_details (mkContent 145) sig_535 = false := by
  unfold verify_patch_details
  rw [show sig_535.expected_changes =
    [⟨1193046, [133, 192], [144, 144]⟩, ⟨1194684, [117, 10], [49, 192, 195]⟩] from rfl]
  rw [List.all_cons, List.all_cons, List.all_nil, changeOk_first_flip, changeOk_second]
  rfl

theorem check_sig_valid :
    check_patch_signature patch_signatures (mkContent 144) "535.274.02" = true := by
  unfold check_patch_signature
  rw [show patch_signatures "535.274.02" = some sig_535 from rfl]
  show (if bytesContains sig_535.magic_bytes (mkContent 144) then
    verify_patch_details (mkContent 144) sig_535 else false) = true
  rw [magic_in_mkContent, details_valid]
  rfl

theorem check_sig_flip :
    check_patch_signature patch_signatures (mkContent 145) "535.274.02" = false := by
  unfold check_patch_signature
  rw [show patch_signatures "535.274.02" = some sig_535 from rfl]
  show (if bytesContains sig_535.magic_bytes (mkContent 145) then
    verify_patch_details (mkContent 145) sig_535 else false) = false
  rw [magic_in_mkContent, details_flip]
  rfl

/-! ### Claims about the patch verifier -/

/-- C1 (counterexample): on a file that is fully valid for the built-in
`535.274.02` signature, `verify_module` reports `patched = true` and
`valid = true`; flipping the single byte at offset `0x123456` (inside the
first patched region) makes it report `patched = false` and
`valid = false` — not `patched = true, valid = false` as the claim
states — and no failing offset is recorded in the result. -/
theorem C1_counterexample :
    verify_module patch_signatures (fun _ => some (mkContent 144)) "m.ko" "535.274.02" =
      ⟨true, true, true, []⟩ ∧
    verify_module patch_signatures (fun _ => some (mkContent 145)) "m.ko" "535.274.02" =
      ⟨true, false, false, []⟩ := by
  constructor
  · unfold verify_module
    show (if check_patch_signature patch_signatures (mkContent 144) "535.274.02" then
      (⟨true, true, true, []⟩ : VerificationResult) else ⟨true, false, false, []⟩) =
        ⟨true, true, true, []⟩
    rw [check_sig_valid]
    rfl
  · unfold verify_module
    show (if check_patch_signature patch_signatures (mkContent 145) "535.274.02" then
      (⟨true, true, true, []⟩ : VerificationResult) else ⟨true, false, false, []⟩) =
        ⟨true, false, false, []⟩
    rw [check_sig_flip]
    rfl

/-- C1 (amended): for every file that exists and contains the version's
magic marker, if at least one change record fails its check (wrong bytes at
the offset, or offset + length of the patched bytes exceeding the file
length), `verify_module` returns `valid = false` together with
`patched = false` (the flags are never split), and records no error and no
failing offset in the result. -/
theorem C1_amended (catalog : String → Option SignatureInfo)
    (fs : String → Option (List Nat)) (module_path version : String)
    (content : List Nat) (sig : SignatureInfo)
    (hread : fs module_path = some content)
    (hcat : catalog version = some sig)
    (hmagic : bytesContains sig.magic_bytes content = true)
    (hbad : ∃ c ∈ sig.expected_changes, changeOk content c = false) :
    verify_module catalog fs module_path version = ⟨true, false, false, []⟩ := by
  have hdet : verify_patch_details content sig = false := by
    unfold verify_patch_details
    rw [List.all_eq_false]
    rcases hbad with ⟨c, hc, hcf⟩
    exact ⟨c, hc, by rw [hcf]; exact Bool.false_ne_true⟩
  have hsig : check_patch_signature catalog content version = false := by
    unfold check_patch_signature
    rw [hcat]
    show (if bytesContains sig.magic_bytes content then
      verify_patch_details content sig else false) = false
    rw [hmagic]
    show verify_patch_details content sig = false
    exact hdet
  unfold verify_module
  rw [hread]
  show (if check_patch_signature catalog content version then
    (⟨true, true, true, []⟩ : VerificationResult) else ⟨true, false, false, []⟩) =
      ⟨true, false, false, []⟩
  rw [hsig]
  rfl

/-- C1 (witness for the amended theorem): a one-byte file containing the
one-byte magic marker of a tiny catalog whose single change record is out
of range verifies as `patched = false, valid = false` with no errors. -/
theorem C1_amended_witness :
    verify_module (fun v => if v = "v" then some ⟨[7], [⟨0, [1], [2, 2]⟩]⟩ else none)
      (fun p => if p = "a.ko" then some [7] else none) "a.ko" "v" =
      ⟨true, false, false, []⟩ :=
  C1_amended _ _ "a.ko" "v" [7] ⟨[7], [⟨0, [1], [2, 2]⟩]⟩
    (by decide) (by decide) (by decide) ⟨⟨0, [1], [2, 2]⟩, by decide, by decide⟩

/-- Helper: the count-based status classification used by
`verify_driver_installation` agrees with the all/any formulation. -/
theorem fleet_status_eq (ms : List VerificationResult) :
    (if ms.length = 0 then "not_found"
     else if (List.filter (fun m => m.valid) ms).length = ms.length then "fully_patched"
     else if 0 < (List.filter (fun m => m.patched) ms).length then "partially_patched"
     else "not_patched") =
    (if ms.length = 0 then "not_found"
     else if ms.all (fun m => m.valid) then "fully_patched"
     else if ms.any (fun m => m.patched) then "partially_patched"
     else "not_patched") := by
  have hval : ((List.filter (fun m => m.valid) ms).length = ms.length) ↔
      (ms.all fun m => m.valid) = true := by
    rw [List.filter_length_eq_length, List.all_eq_true]
  have hpat : (0 < (List.filter (fun m => m.patched) ms).length) ↔
      (ms.any fun m => m.patched) = true := by
    rw [List.length_pos, Ne, List.filter_eq_nil_iff, List.any_eq_true]
    push_neg
    exact Iff.rfl
  by_cases h0 : ms.length = 0
  · rw [if_pos h0, if_pos h0]
  · rw [if_neg h0, if_neg h0]
    by_cases hv : (ms.all fun m => m.valid) = true
    · rw [if_pos (hval.mpr hv), if_pos hv]
    · rw [if_neg (fun h => hv (hval.mp h)), if_neg hv]
      by_cases hp : (ms.any fun m => m.patched) = true
      · rw [if_pos (hpat.mpr hp), if_pos hp]
      · rw [if_neg (fun h => hp (hpat.mp h)), if_neg hp]

/-- C2: the fleet status of `verify_driver_installation` follows the exact
precedence: `not_found` when zero modules were checked; else
`fully_patched` when every checked module is individually valid; else
`partially_patched` when at least one module has `patched = true`; else
`not_patched`. -/
theorem C2_fleet_status_precedence (catalog : String → Option SignatureInfo)
    (fs : String → Option (List Nat)) (version : String)
    (module_paths : List String) :
    (verify_driver_installation catalog fs version module_paths).overall_status =
      (if (verify_driver_installation catalog fs version module_paths).modules_checked = 0
       then "not_found"
       else if (verify_driver_installation catalog fs version module_paths).modules.all
           (fun m => m.valid) then "fully_patched"
       else if (verify_driver_installation catalog fs version module_paths).modules.any
           (fun m => m.patched) then "partially_patched"
       else "not_patched") := by
  exact fleet_status_eq (module_paths.map (fun p => verify_module catalog fs p version))

/-- C5 (counterexample): for an existing file and a version absent from the
catalog, `verify_module` returns `patched = false` and `valid = false` with
an **empty** error list — there is no "no signature known for this version"
entry, so the missing descriptor is reported exactly like an ordinary
not-patched file. -/
theorem C5_counterexample :
    verify_module patch_signatures
      (fun p => if p = "nvidia.ko" then some ([0] : List Nat) else none)
      "nvidia.ko" "999.99" = ⟨true, false, false, []⟩ := by decide

/-- C5 (amended): for every existing file and every version with no entry
in the signature catalog, `verify_module` returns `patched = false` and
`valid = false` with an empty error list; the missing descriptor is only
logged and is indistinguishable in the result from an ordinary not-patched
file. -/
theorem C5_amended (catalog : String → Option SignatureInfo)
    (fs : String → Option (List Nat)) (module_path version : String)
    (content : List Nat)
    (hread : fs module_path = some content)
    (hcat : catalog version = none) :
    verify_module catalog fs module_path version = ⟨true, false, false, []⟩ := by
  have hsig : check_patch_signature catalog content version = false := by
    unfold check_patch_signature
    rw [hcat]
  unfold verify_module
  rw [hread]
  show (if check_patch_signature catalog content version then
    (⟨true, true, true, []⟩ : VerificationResult) else ⟨true, false, false, []⟩) =
      ⟨true, false, false, []⟩
  rw [hsig]
  rfl

/-- C5 (witness for the amended theorem). -/
theorem C5_amended_witness :
    verify_module patch_signatures
      (fun p => if p = "nvidia.ko" then some ([0] : List Nat) else none)
      "nvidia.ko" "384.11" = ⟨true, false, false, []⟩ :=
  C5_amended patch_signatures _ "nvidia.ko" "384.11" [0] (by decide) (by decide)

/-- C10: in every result of `verify_module` the `patched` and `valid` flags
are equal, so the result never shows `patched = true` with `valid = false`;
and a non-existent file yields both flags false. -/
theorem C10_patched_eq_valid (catalog : String → Option SignatureInfo)
    (fs : String → Option (List Nat)) (module_path version : String) :
    ((verify_module catalog fs module_path version).patched =
      (verify_module catalog fs module_path version).valid) ∧
    (fs module_path = none →
      (verify_module catalog fs module_path version).patched = false ∧
      (verify_module catalog fs module_path version).valid = false) := by
  unfold verify_module
  cases h : fs module_path with
  | none => simp
  | some content =>
    constructor
    · by_cases hc : check_patch_signature catalog content version <;> simp [hc]
    · intro hcontra
      exact absurd hcontra (Option.some_ne_none content)

/-- C10 (witness): evaluated on an empty filesystem. -/
theorem C10_witness :
    (verify_module patch_signatures (fun _ => none) "m.ko" "535.274.02").patched = false ∧
    (verify_module patch_signatures (fun _ => none) "m.ko" "535.274.02").valid = false :=
  (C10_patched_eq_valid patch_signatures (fun _ => none) "m.ko" "535.274.02").2 rfl

/-! ## Backup manager embedding (`src/backup_manager.py`) -/

/-- One entry of a backup's `files` list (a `backed_up_files` dict). -/
structure FileRecord where
  original : String
  backup : String
  size : Nat
  checksum : String
deriving DecidableEq

/-- One entry of a backup's `config_files` list. -/
structure ConfigRecord where
  original : String
  backup : String
deriving DecidableEq

/-- One value of the `backup_data` index (the `created_at` and
`driver_info` fields are omitted; no claim depends on them). -/
structure BackupEntry where
  version : String
  timestamp : String
  files : List FileRecord
  config_files : List ConfigRecord
deriving DecidableEq

/-- The `BackupManager` state: the in-memory `backup_data` dict (an
insertion-ordered association list, like a Python dict) and the contents
of `backup_index.json` as last written by `save_backup_index`. -/
structure BMState where
  backup_data : List (String × BackupEntry)
  persisted : List (String × BackupEntry)
deriving DecidableEq

/-- Embeds `BackupManager._calculate_checksum`: digest of the file's content; the
`except` clause turns any read failure into the empty string. -/
def calculate_checksum (digest : List Nat → String)
    (fs : String → Option (List Nat)) (file_path : String) : String :=
  match fs file_path with
  | some content => digest content
  | none => ""

/-- Embeds `os.path.basename`: the part of the path after the last slash. -/
def basename (s : String) : String :=
  ⟨s.data.foldl (fun acc c => if c = '/' then [] else acc ++ [c]) []⟩

/-- The fixed `config_paths` list of `_backup_config_files`. -/
def config_paths : List String :=
  ["/etc/modprobe.d/nvidia.conf", "/etc/modprobe.d/nvidia-drm.conf",
   "/etc/X11/xorg.conf", "/etc/X11/xorg.conf.d/nvidia.conf",
   "/usr/share/X11/xorg.conf.d/nvidia.conf"]

/-- Embeds `BackupManager._backup_config_files`: record a copy of each existing
config file under `<backup_path>/config/`. -/
def backup_config_files (fs : String → Option (List Nat))
    (backup_path : String) : List ConfigRecord :=
  config_paths.filterMap fun p =>
    match fs p with
    | some _ => some ⟨p, backup_path ++ "/config/" ++ basename p⟩
    | none => none

/-- Python dict assignment `d[k] = v` on the insertion-ordered index:
replaces the value in place when the key exists, otherwise appends. -/
def dictInsert : List (String × BackupEntry) → String → BackupEntry →
    List (String × BackupEntry)
  | [], k, v => [(k, v)]
  | p :: rest, k, v =>
    if p.1 = k then (k, v) :: rest else p :: dictInsert rest k v

/-- Python dict lookup `d[k]`. -/
def dictLookup (d : List (String × BackupEntry)) (k : String) :
    Option BackupEntry :=
  (d.find? (fun p => p.1 == k)).map Prod.snd

/-- Embeds `BackupManager.create_backup`, parametrised by the digest function,
the filesystem, the module paths found by the driver detector, and the
current timestamp: records a `FileRecord` for each module file that
exists, records the existing config files, writes the new entry into
`backup_data` under the timestamp-derived name, persists the index, and
returns the backup path only when at least one driver file was copied. -/
def create_backup (digest : List Nat → String)
    (fs : String → Option (List Nat)) (module_paths : List String)
    (st : BMState) (version timestamp : String) : BMState × Option String :=
  let backup_name := "nvidia_" ++ version ++ "_" ++ timestamp
  let backed_up_files := module_paths.filterMap fun p =>
    match fs p with
    | some content =>
      some ⟨p, backup_name ++ "/" ++ basename p, content.length, digest content⟩
    | none => none
  let cfg := backup_config_files fs backup_name
  let entry : BackupEntry := ⟨version, timestamp, backed_up_files, cfg⟩
  let data := dictInsert st.backup_data backup_name entry
  (⟨data, data⟩, if 0 < backed_up_files.length then some backup_name else none)

/-- Lexicographic comparison of char lists, as Python compares strings. -/
def charListLt : List Char → List Char → Bool
  | [], [] => false
  | [], _ :: _ => true
  | _ :: _, [] => false
  | a :: as, b :: bs => if a < b then true else if b < a then false else charListLt as bs

/-- Python string `<`: code-point lexicographic order. -/
def strLt (s t : String) : Bool := charListLt s.data t.data

/-- Does the timestamp `ts` beat the best candidate seen so far in
`_find_latest_backup`?  (`latest_timestamp is None or timestamp >
latest_timestamp`.) -/
def beats (acc : Option (String × String)) (ts : String) : Bool :=
  match acc with
  | none => true
  | some q => strLt q.2 ts

/-- One step of the `_find_latest_backup` scan. -/
def step_latest (version : String) (acc : Option (String × String))
    (p : String × BackupEntry) : Option (String × String) :=
  if p.2.version = version ∧ p.2.timestamp ≠ "" ∧ beats acc p.2.timestamp = true then
    some (p.1, p.2.timestamp)
  else acc

/-- Embeds `BackupManager._find_latest_backup`: scan the index in insertion
order, keeping the entry with the given version, a non-empty timestamp,
and the strictly greatest timestamp seen so far. -/
def find_latest_backup (st : BMState) (version : String) : Option String :=
  (st.backup_data.foldl (step_latest version) none).map Prod.fst

/-- The file-restore loop of `BackupManager.restore_backup`: for each
record whose backup copy exists, recompute the digest of the backup copy
and copy it over the original only when the digest equals the recorded
checksum, counting the files actually restored; a missing backup copy or
a mismatch skips the record and the loop continues. -/
def restore_files (digest : List Nat → String) :
    List FileRecord → (String → Option (List Nat)) →
    (String → Option (List Nat)) × Nat
  | [], fs => (fs, 0)
  | fr :: rest, fs =>
    match fs fr.backup with
    | some content =>
      if digest content = fr.checksum then
        let fs1 := fun p => if p = fr.original then some content else fs p
        let r := restore_files digest rest fs1
        (r.1, r.2 + 1)
      else restore_files digest rest fs
    | none => restore_files digest rest fs

/-- The config-restore loop of `restore_backup`: copy each existing
backup config file over its original, with no checksum gate. -/
def restore_configs : List ConfigRecord → (String → Option (List Nat)) →
    (String → Option (List Nat))
  | [], fs => fs
  | c :: rest, fs =>
    match fs c.backup with
    | some content =>
      restore_configs rest (fun p => if p = c.original then some content else fs p)
    | none => restore_configs rest fs

/-- Embeds `BackupManager.restore_backup`: find the latest backup for the
version, restore its files behind the checksum gate, restore its config
files unconditionally, and report success iff at least one driver file
was restored. -/
def restore_backup (digest : List Nat → String)
    (fs : String → Option (List Nat)) (st : BMState) (version : String) :
    (String → Option (List Nat)) × Bool :=
  match find_latest_backup st version with
  | none => (fs, false)
  | some nm =>
    match dictLookup st.backup_data nm with
    | none => (fs, false)
    | some info =>
      let r := restore_files digest info.files fs
      (restore_configs info.config_files r.1, decide (0 < r.2))

/-- Embeds `BackupManager.list_backups`: the index entries ordered by timestamp
descending (Python's stable `sorted` with `reverse=True`). -/
def list_backups (st : BMState) : List (String × BackupEntry) :=
  st.backup_data.mergeSort (fun a b => !(strLt a.2.timestamp b.2.timestamp))

/-- Embeds `BackupManager.delete_backup`, with the success of the snapshot
directory removal supplied by the oracle `deleteOk`: fails when the name
is absent from the index or the removal fails (the index is then left
unchanged), otherwise removes the entry and persists the index. -/
def delete_backup (deleteOk : String → Bool) (st : BMState)
    (backup_name : String) : BMState × Bool :=
  if st.backup_data.any (fun p => p.1 == backup_name) then
    if deleteOk backup_name then
      let d := st.backup_data.filter (fun p => !(p.1 == backup_name))
      (⟨d, d⟩, true)
    else (st, false)
  else (st, false)

/-- The loop body of `cleanup_old_backups`. -/
def cleanup_step (deleteOk : String → Bool) (acc : BMState × Nat)
    (b : String × BackupEntry) : BMState × Nat :=
  let r := delete_backup deleteOk acc.1 b.1
  (r.1, if r.2 then acc.2 + 1 else acc.2)

/-- Embeds `BackupManager.cleanup_old_backups`: keep the `keep_count` most
recent backups in the `list_backups` ordering, try to delete every older
one, continue past per-item failures and return the number of deletions
that succeeded. -/
def cleanup_old_backups (deleteOk : String → Bool) (st : BMState)
    (keep_count : Nat) : BMState × Nat :=
  let backups := list_backups st
  if backups.length ≤ keep_count then (st, 0)
  else ((backups.drop keep_count).foldl (cleanup_step deleteOk) (st, 0))

/-! ### Claims about the backup manager -/

/-- After a Python dict assignment the key maps to the assigned value. -/
theorem dictLookup_dictInsert (d : List (String × BackupEntry)) (k : String)
    (v : BackupEntry) : dictLookup (dictInsert d k v) k = some v := by
  induction d with
  | nil => simp [dictInsert, dictLookup]
  | cons p rest ih =>
    by_cases h : p.1 = k
    · simp [dictInsert, dictLookup, h]
    · simp only [dictInsert, if_neg h]
      simpa [dictLookup, List.find?_cons, h] using ih

/-- C3 (counterexample): on an unreadable path `_calculate_checksum`
returns the empty string, not an explicit I/O error — the claim that it
never returns an empty digest fails on the code's `except` branch. -/
theorem C3_counterexample :
    calculate_checksum (fun _ => "abcd") (fun _ => none) "/lib/nvidia.ko" = "" := rfl

/-- C3 (amended): for every digest function, filesystem and unreadable
path, `_calculate_checksum` returns the empty string (the read error is
only logged); a caller comparing it against a stored digest sees an
ordinary mismatch, not an explicit I/O error. -/
theorem C3_amended (digest : List Nat → String)
    (fs : String → Option (List Nat)) (file_path : String)
    (h : fs file_path = none) :
    calculate_checksum digest fs file_path = "" := by
  unfold calculate_checksum
  rw [h]

/-- C3 (witness for the amended theorem). -/
theorem C3_amended_witness :
    calculate_checksum (fun _ => "abcd") (fun _ => none) "/lib/nvidia-drm.ko" = "" :=
  C3_amended (fun _ => "abcd") (fun _ => none) "/lib/nvidia-drm.ko" rfl

/-- C4 (counterexample): with `"nvidia_1.0_t1"` already present in the
index, `create_backup` for version `1.0` at timestamp `t1` raises no
duplicate-name failure: it succeeds (returns the backup path) and the
name now maps to the freshly built entry instead of the old one. -/
theorem C4_counterexample :
    (create_backup (fun _ => "h") (fun p => if p = "m.ko" then some [1] else none)
        ["m.ko"]
        ⟨[("nvidia_1.0_t1", ⟨"1.0", "t0", [], []⟩)],
         [("nvidia_1.0_t1", ⟨"1.0", "t0", [], []⟩)]⟩
        "1.0" "t1").2 = some "nvidia_1.0_t1" ∧
    dictLookup (create_backup (fun _ => "h")
        (fun p => if p = "m.ko" then some [1] else none) ["m.ko"]
        ⟨[("nvidia_1.0_t1", ⟨"1.0", "t0", [], []⟩)],
         [("nvidia_1.0_t1", ⟨"1.0", "t0", [], []⟩)]⟩
        "1.0" "t1").1.backup_data "nvidia_1.0_t1" =
      some ⟨"1.0", "t1", [⟨"m.ko", "nvidia_1.0_t1/m.ko", 1, "h"⟩], []⟩ := by
  constructor <;> decide

/-- C4 (amended): recording a backup under a name already present in the
ledger does not fail with any duplicate-name error and does not leave the
existing entry unchanged: after every `create_backup` the
timestamp-derived name maps to the freshly built entry — Python dict
assignment silently overwrites. -/
theorem C4_amended (digest : List Nat → String)
    (fs : String → Option (List Nat)) (module_paths : List String)
    (st : BMState) (version timestamp : String) :
    ∃ e : BackupEntry,
      dictLookup
        (create_backup digest fs module_paths st version timestamp).1.backup_data
        ("nvidia_" ++ version ++ "_" ++ timestamp) = some e ∧
      e.version = version ∧ e.timestamp = timestamp :=
  ⟨_, dictLookup_dictInsert st.backup_data _ _, rfl, rfl⟩

/-- C9: whenever `create_backup` reaches the per-file copy loop, it
inserts an entry named from the version and timestamp into the index and
persists the index, even when zero driver files were copied and the
operation then reports failure. -/
theorem C9_failed_backup_mutates_ledger (digest : List Nat → String)
    (fs : String → Option (List Nat)) (module_paths : List String)
    (st : BMState) (version timestamp : String)
    (hnone : ∀ p ∈ module_paths, fs p = none) :
    (create_backup digest fs module_paths st version timestamp).2 = none ∧
    dictLookup
      (create_backup digest fs module_paths st version timestamp).1.backup_data
      ("nvidia_" ++ version ++ "_" ++ timestamp) ≠ none ∧
    (create_backup digest fs module_paths st version timestamp).1.persisted =
      (create_backup digest fs module_paths st version timestamp).1.backup_data := by
  have hemp : (module_paths.filterMap fun p =>
      match fs p with
      | some content =>
        some (⟨p, ("nvidia_" ++ version ++ "_" ++ timestamp) ++ "/" ++ basename p,
          content.length, digest content⟩ : FileRecord)
      | none => none) = [] := by
    rw [List.filterMap_eq_nil_iff]
    intro p hp
    rw [hnone p hp]
  refine ⟨?_, ?_, rfl⟩
  · simp only [create_backup]
    rw [hemp]
    rfl
  · intro hc
    exact Option.some_ne_none _
      ((dictLookup_dictInsert st.backup_data _ _).symm.trans hc)

/-- C9 (witness): backing up with no copyable module file still writes
and persists the ledger entry while reporting failure. -/
theorem C9_witness :
    (create_backup (fun _ => "h") (fun _ => none) ["m.ko"] ⟨[], []⟩
      "1.0" "t1").2 = none ∧
    dictLookup (create_backup (fun _ => "h") (fun _ => none) ["m.ko"] ⟨[], []⟩
      "1.0" "t1").1.backup_data ("nvidia_" ++ "1.0" ++ "_" ++ "t1") ≠ none ∧
    (create_backup (fun _ => "h") (fun _ => none) ["m.ko"] ⟨[], []⟩
      "1.0" "t1").1.persisted =
      (create_backup (fun _ => "h") (fun _ => none) ["m.ko"] ⟨[], []⟩
        "1.0" "t1").1.backup_data :=
  C9_failed_backup_mutates_ledger (fun _ => "h") (fun _ => none) ["m.ko"] ⟨[], []⟩
    "1.0" "t1" (fun p _ => rfl)

/-- C7: when `restore_backup` resolves a backup, its success flag is true
iff the file-restore loop restored at least one `FileRecord`; the flag is
computed from the driver-file count alone, so zero restored driver files
report failure regardless of how many config files restored. -/
theorem C7_success_iff_file_restored (digest : List Nat → String)
    (fs : String → Option (List Nat)) (st : BMState) (version nm : String)
    (info : BackupEntry)
    (h1 : find_latest_backup st version = some nm)
    (h2 : dictLookup st.backup_data nm = some info) :
    ((restore_backup digest fs st version).2 = true ↔
      0 < (restore_files digest info.files fs).2) ∧
    (info.files = [] → (restore_backup digest fs st version).2 = false) := by
  have hb : (restore_backup digest fs st version).2 =
      decide (0 < (restore_files digest info.files fs).2) := by
    simp only [restore_backup, h1, h2]
  constructor
  · rw [hb]
    exact decide_eq_true_iff
  · intro h0
    rw [hb, h0]
    rfl

/-- C7 (witness): a resolvable backup with no file records and one config
record reports failure. -/
theorem C7_witness :
    (restore_backup (fun _ => "h") (fun _ => some [1])
      ⟨[("n", ⟨"1.0", "t", [], [⟨"/etc/X11/xorg.conf", "n/config/xorg.conf"⟩]⟩)],
       [("n", ⟨"1.0", "t", [], [⟨"/etc/X11/xorg.conf", "n/config/xorg.conf"⟩]⟩)]⟩
      "1.0").2 = false :=
  (C7_success_iff_file_restored (fun _ => "h") (fun _ => some [1])
    ⟨[("n", ⟨"1.0", "t", [], [⟨"/etc/X11/xorg.conf", "n/config/xorg.conf"⟩]⟩)],
     [("n", ⟨"1.0", "t", [], [⟨"/etc/X11/xorg.conf", "n/config/xorg.conf"⟩]⟩)]⟩
    "1.0" "n" ⟨"1.0", "t", [], [⟨"/etc/X11/xorg.conf", "n/config/xorg.conf"⟩]⟩
    (by decide) (by decide)).2 rfl

/-- The restore loop never writes to a path that is not the original path
of one of its records. -/
theorem restore_files_untouched (digest : List Nat → String) :
    ∀ (files : List FileRecord) (x : String),
      (∀ r ∈ files, r.original ≠ x) →
      ∀ fs : String → Option (List Nat), (restore_files digest files fs).1 x = fs x
  | [], _, _, _ => rfl
  | fr :: rest, x, hx, fs => by
    have hxr : ∀ r ∈ rest, r.original ≠ x := fun r hr => hx r (List.mem_cons_of_mem _ hr)
    have hfr : fr.original ≠ x := hx fr (List.mem_cons_self _ _)
    rw [restore_files]
    cases hb : fs fr.backup with
    | none => exact restore_files_untouched digest rest x hxr fs
    | some content =>
      show ((if digest content = fr.checksum then
          ((restore_files digest rest
              (fun p => if p = fr.original then some content else fs p)).1,
           (restore_files digest rest
              (fun p => if p = fr.original then some content else fs p)).2 + 1)
        else restore_files digest rest fs)).1 x = fs x
      by_cases hd : digest content = fr.checksum
      · rw [if_pos hd]
        show (restore_files digest rest
          (fun p => if p = fr.original then some content else fs p)).1 x = fs x
        rw [restore_files_untouched digest rest x hxr _]
        exact if_neg (fun hpe => hfr hpe.symm)
      · rw [if_neg hd]
        exact restore_files_untouched digest rest x hxr fs

/-- C6: in the restore loop the digest is recomputed from the backup copy
(the filesystem is read at `r.backup`, never at `r.original`) and
compared against the recorded checksum before any copy-back: a mismatching
record is skipped, leaving its original path untouched, and every record
whose backup copy's digest matches is restored to its original path.
Stated for records whose backup paths are disjoint from all original
paths and whose original paths are pairwise distinct, as in the real
layout where originals live in system directories and backups in the
snapshot directory. -/
theorem C6_checksum_gated_restore (digest : List Nat → String) :
    ∀ (files : List FileRecord) (fs : String → Option (List Nat)),
      (∀ r ∈ files, ∀ s ∈ files, r.backup ≠ s.original) →
      (files.map (fun r => r.original)).Nodup →
      ∀ r ∈ files, ∀ c : List Nat, fs r.backup = some c →
        (restore_files digest files fs).1 r.original =
          (if digest c = r.checksum then some c else fs r.original)
  | [], _, _, _, r, hr, _, _ => absurd hr (List.not_mem_nil r)
  | fr :: rest, fs, hsep, hdist, r, hr, c, hc => by
    have hsep_rest : ∀ a ∈ rest, ∀ s ∈ rest, a.backup ≠ s.original := fun a ha s hs =>
      hsep a (List.mem_cons_of_mem _ ha) s (List.mem_cons_of_mem _ hs)
    have hmapc : (fr :: rest).map (fun r => r.original) =
        fr.original :: rest.map (fun r => r.original) := List.map_cons _ _ _
    have hdist' := hmapc ▸ hdist
    have hdist_rest : (rest.map (fun r => r.original)).Nodup :=
      (List.nodup_cons.mp hdist').2
    have hfr_notin : fr.original ∉ rest.map (fun r => r.original) :=
      (List.nodup_cons.mp hdist').1
    rcases List.mem_cons.mp hr with heq | hmem
    · subst heq
      have hxr : ∀ s ∈ rest, s.original ≠ r.original := fun s hs hpe =>
        hfr_notin (hpe ▸ List.mem_map_of_mem (fun t => t.original) hs)
      rw [restore_files, hc]
      show ((if digest c = r.checksum then
          ((restore_files digest rest
              (fun p => if p = r.original then some c else fs p)).1,
           (restore_files digest rest
              (fun p => if p = r.original then some c else fs p)).2 + 1)
        else restore_files digest rest fs)).1 r.original =
        (if digest c = r.checksum then some c else fs r.original)
      by_cases hd : digest c = r.checksum
      · rw [if_pos hd, if_pos hd]
        show (restore_files digest rest
          (fun p => if p = r.original then some c else fs p)).1 r.original = some c
        rw [restore_files_untouched digest rest r.original hxr _]
        exact if_pos rfl
      · rw [if_neg hd, if_neg hd]
        exact restore_files_untouched digest rest r.original hxr fs
    · have hbk_ne : r.backup ≠ fr.original :=
        hsep r hr fr (List.mem_cons_self _ _)
      have horig_ne : ¬(r.original = fr.original) := fun h =>
        hfr_notin (h ▸ List.mem_map_of_mem (fun t => t.original) hmem)
      rw [restore_files]
      cases hbk : fs fr.backup with
      | none => exact C6_checksum_gated_restore digest rest fs hsep_rest hdist_rest r hmem c hc
      | some content =>
        show ((if digest content = fr.checksum then
            ((restore_files digest rest
                (fun p => if p = fr.original then some content else fs p)).1,
             (restore_files digest rest
                (fun p => if p = fr.original then some content else fs p)).2 + 1)
          else restore_files digest rest fs)).1 r.original =
          (if digest c = r.checksum then some c else fs r.original)
        by_cases hd : digest content = fr.checksum
        · rw [if_pos hd]
          show (restore_files digest rest
            (fun p => if p = fr.original then some content else fs p)).1 r.original =
            (if digest c = r.checksum then some c else fs r.original)
          have hc1 : (fun p => if p = fr.original then some content else fs p) r.backup =
              some c := by
            show (if r.backup = fr.original then some content else fs r.backup) = some c
            rw [if_neg hbk_ne, hc]
          rw [C6_checksum_gated_restore digest rest _ hsep_rest hdist_rest r hmem c hc1]
          by_cases hd2 : digest c = r.checksum
          · rw [if_pos hd2, if_pos hd2]
          · rw [if_neg hd2, if_neg hd2]
            show (if r.original = fr.original then some content else fs r.original) =
              fs r.original
            rw [if_neg horig_ne]
        · rw [if_neg hd]
          exact C6_checksum_gated_restore digest rest fs hsep_rest hdist_rest r hmem c hc

/-- C6 (witness): with the backup copy of `/o/a` corrupted (its digest no
longer matches the recorded checksum `HA`), restoring skips `/o/a` while
`/o/b`, whose backup copy still matches, is restored. -/
theorem C6_witness :
    (restore_files (fun c => if c = [1] then "HA" else if c = [2] then "HB" else "X")
      [⟨"/o/a", "/b/a", 1, "HA"⟩, ⟨"/o/b", "/b/b", 1, "HB"⟩]
      (fun p => if p = "/b/a" then some [9] else
        if p = "/b/b" then some [2] else none)).1 "/o/a" = none ∧
    (restore_files (fun c => if c = [1] then "HA" else if c = [2] then "HB" else "X")
      [⟨"/o/a", "/b/a", 1, "HA"⟩, ⟨"/o/b", "/b/b", 1, "HB"⟩]
      (fun p => if p = "/b/a" then some [9] else
        if p = "/b/b" then some [2] else none)).1 "/o/b" = some [2] := by
  constructor
  · exact (C6_checksum_gated_restore
      (fun c => if c = [1] then "HA" else if c = [2] then "HB" else "X")
      [⟨"/o/a", "/b/a", 1, "HA"⟩, ⟨"/o/b", "/b/b", 1, "HB"⟩]
      (fun p => if p = "/b/a" then some [9] else
        if p = "/b/b" then some [2] else none)
      (by decide) (by decide) ⟨"/o/a", "/b/a", 1, "HA"⟩ (by decide) [9]
      (by decide)).trans (by decide)
  · exact (C6_checksum_gated_restore
      (fun c => if c = [1] then "HA" else if c = [2] then "HB" else "X")
      [⟨"/o/a", "/b/a", 1, "HA"⟩, ⟨"/o/b", "/b/b", 1, "HB"⟩]
      (fun p => if p = "/b/a" then some [9] else
        if p = "/b/b" then some [2] else none)
      (by decide) (by decide) ⟨"/o/b", "/b/b", 1, "HB"⟩ (by decide) [2]
      (by decide)).trans (by decide)

/-- Effect of the deletion loop of `cleanup_old_backups` on an index with
unique names: a listed name is removed exactly when its directory removal
succeeds, successful deletions are counted, and per-item failures do not
abort the loop. -/
theorem cleanup_fold (deleteOk : String → Bool) :
    ∀ (ts : List (String × BackupEntry)) (st : BMState) (n : Nat),
      (st.backup_data.map Prod.fst).Nodup →
      (ts.map Prod.fst).Nodup →
      (∀ b ∈ ts, b.1 ∈ st.backup_data.map Prod.fst) →
      (ts.foldl (cleanup_step deleteOk) (st, n)).1.backup_data =
        st.backup_data.filter
          (fun p => !(ts.any (fun b => p.1 == b.1 && deleteOk b.1))) ∧
      (ts.foldl (cleanup_step deleteOk) (st, n)).2 =
        n + (ts.filter (fun b => deleteOk b.1)).length
  | [], st, n, _, _, _ => by
    constructor
    · simp
    · simp
  | b :: rest, st, n, hnd, hts, hmem => by
    have hb_mem : b.1 ∈ st.backup_data.map Prod.fst := hmem b (List.mem_cons_self _ _)
    have hpresent : st.backup_data.any (fun p => p.1 == b.1) = true := by
      rw [List.any_eq_true]
      rcases List.mem_map.mp hb_mem with ⟨p, hp, hpe⟩
      exact ⟨p, hp, by rw [hpe]; exact beq_self_eq_true _⟩
    have hts' : (b.1 :: rest.map Prod.fst).Nodup := by simpa using hts
    have hts_rest : (rest.map Prod.fst).Nodup := (List.nodup_cons.mp hts').2
    have hb_notin : b.1 ∉ rest.map Prod.fst := (List.nodup_cons.mp hts').1
    rw [List.foldl_cons]
    by_cases hok : deleteOk b.1 = true
    · have hstep : cleanup_step deleteOk (st, n) b =
          (⟨st.backup_data.filter (fun p => !(p.1 == b.1)),
            st.backup_data.filter (fun p => !(p.1 == b.1))⟩, n + 1) := by
        unfold cleanup_step delete_backup
        rw [hpresent, hok]
        simp
      rw [hstep]
      have hnd1 : (((st.backup_data.filter (fun p => !(p.1 == b.1))).map Prod.fst)).Nodup :=
        hnd.sublist ((List.filter_sublist _).map Prod.fst)
      have hmem1 : ∀ s ∈ rest,
          s.1 ∈ (st.backup_data.filter (fun p => !(p.1 == b.1))).map Prod.fst := by
        intro s hs
        have hsne : s.1 ≠ b.1 := fun h => hb_notin (h ▸ List.mem_map_of_mem Prod.fst hs)
        rcases List.mem_map.mp (hmem s (List.mem_cons_of_mem _ hs)) with ⟨p, hp, hpe⟩
        refine List.mem_map.mpr ⟨p, List.mem_filter.mpr ⟨hp, ?_⟩, hpe⟩
        rw [hpe, beq_eq_false_iff_ne.mpr hsne]
        rfl
      have ih := cleanup_fold deleteOk rest
        ⟨st.backup_data.filter (fun p => !(p.1 == b.1)),
         st.backup_data.filter (fun p => !(p.1 == b.1))⟩ (n + 1) hnd1 hts_rest hmem1
      constructor
      · rw [ih.1]
        show (st.backup_data.filter _).filter _ = _
        rw [List.filter_filter]
        apply List.filter_congr
        intro p _
        rw [List.any_cons, hok]
        cases hpb : p.1 == b.1 <;> simp
      · rw [ih.2]
        have hfc : (b :: rest).filter (fun q => deleteOk q.1) =
            b :: rest.filter (fun q => deleteOk q.1) := by
          rw [List.filter_cons, hok]
          rfl
        rw [hfc, List.length_cons]
        omega
    · have hok' : deleteOk b.1 = false := Bool.eq_false_iff.mpr hok
      have hstep : cleanup_step deleteOk (st, n) b = (st, n) := by
        unfold cleanup_step delete_backup
        rw [hpresent, hok']
        simp
      rw [hstep]
      have ih := cleanup_fold deleteOk rest st n hnd hts_rest
        (fun s hs => hmem s (List.mem_cons_of_mem _ hs))
      constructor
      · rw [ih.1]
        apply List.filter_congr
        intro p _
        rw [List.any_cons, hok']
        simp
      · rw [ih.2, List.filter_cons]
        rw [hok']
        simp

/-- C8: `cleanup_old_backups` on an index with unique names deletes only
backups outside the `keep_count` most recent of the `list_backups`
ordering and returns the number of deletions that actually succeeded:
with at most `keep_count` backups it deletes nothing and returns 0;
per-item delete failures are skipped rather than aborting the loop; and
when every attempted deletion succeeds the surviving names are exactly
the names of the `keep_count` most recent backups. -/
theorem C8_retention (deleteOk : String → Bool) (st : BMState) (keep_count : Nat)
    (hnd : (st.backup_data.map Prod.fst).Nodup) :
    ((list_backups st).length ≤ keep_count →
      cleanup_old_backups deleteOk st keep_count = (st, 0)) ∧
    (cleanup_old_backups deleteOk st keep_count).2 =
      (((list_backups st).drop keep_count).filter (fun b => deleteOk b.1)).length ∧
    ((∀ b ∈ (list_backups st).drop keep_count, deleteOk b.1 = true) →
      ∀ nm : String,
        (nm ∈ (cleanup_old_backups deleteOk st keep_count).1.backup_data.map Prod.fst ↔
         nm ∈ ((list_backups st).take keep_count).map Prod.fst)) := by
  have hperm : List.Perm (list_backups st) st.backup_data := List.mergeSort_perm _ _
  have hkeysperm : List.Perm ((list_backups st).map Prod.fst)
      (st.backup_data.map Prod.fst) := hperm.map _
  have hndl : ((list_backups st).map Prod.fst).Nodup := hkeysperm.nodup_iff.mpr hnd
  by_cases hle : (list_backups st).length ≤ keep_count
  · have hcl : cleanup_old_backups deleteOk st keep_count = (st, 0) := by
      unfold cleanup_old_backups
      rw [if_pos hle]
    refine ⟨fun _ => hcl, ?_, ?_⟩
    · rw [hcl, List.drop_eq_nil_of_le hle]
      rfl
    · intro _ nm
      rw [hcl, List.take_of_length_le hle]
      exact hkeysperm.mem_iff.symm
  · have hcl : cleanup_old_backups deleteOk st keep_count =
        ((list_backups st).drop keep_count).foldl (cleanup_step deleteOk) (st, 0) := by
      unfold cleanup_old_backups
      rw [if_neg hle]
    have hts_nodup : (((list_backups st).drop keep_count).map Prod.fst).Nodup := by
      rw [List.map_drop]
      exact hndl.sublist (List.drop_sublist _ _)
    have hts_mem : ∀ b ∈ (list_backups st).drop keep_count,
        b.1 ∈ st.backup_data.map Prod.fst := fun b hb =>
      List.mem_map_of_mem Prod.fst (hperm.mem_iff.mp (List.mem_of_mem_drop hb))
    have hfold := cleanup_fold deleteOk ((list_backups st).drop keep_count) st 0
      hnd hts_nodup hts_mem
    refine ⟨fun h => absurd h hle, ?_, ?_⟩
    · rw [hcl, hfold.2, Nat.zero_add]
    · intro hall nm
      rw [hcl, hfold.1]
      have hsplit : (list_backups st).map Prod.fst =
          ((list_backups st).take keep_count).map Prod.fst ++
          ((list_backups st).drop keep_count).map Prod.fst := by
        rw [← List.map_append, List.take_append_drop]
      have hdisj : List.Disjoint
          (((list_backups st).take keep_count).map Prod.fst)
          (((list_backups st).drop keep_count).map Prod.fst) :=
        (List.nodup_append.mp (hsplit ▸ hndl)).2.2
      have hpred : ∀ p : String × BackupEntry,
          ((!(((list_backups st).drop keep_count).any
            (fun b => p.1 == b.1 && deleteOk b.1))) = true) ↔
          p.1 ∉ ((list_backups st).drop keep_count).map Prod.fst := by
        intro p
        rw [Bool.not_eq_true', List.any_eq_false]
        constructor
        · intro h hmem2
          rcases List.mem_map.mp hmem2 with ⟨b, hb, hbe⟩
          exact h b hb (by rw [hall b hb, Bool.and_true, hbe]; exact beq_self_eq_true _)
        · intro h b hb hq
          have hpb : (p.1 == b.1) = true := by
            rw [Bool.and_eq_true] at hq
            exact hq.1
          exact h (List.mem_map.mpr ⟨b, hb, (beq_iff_eq.mp hpb).symm⟩)
      constructor
      · intro hmm
        rcases List.mem_map.mp hmm with ⟨p, hpf, hpe⟩
        rcases List.mem_filter.mp hpf with ⟨hpd, hpp⟩
        have hnotKD : p.1 ∉ ((list_backups st).drop keep_count).map Prod.fst :=
          (hpred p).mp hpp
        have hK : p.1 ∈ (list_backups st).map Prod.fst :=
          hkeysperm.mem_iff.mpr (List.mem_map_of_mem Prod.fst hpd)
        rw [hsplit] at hK
        rcases List.mem_append.mp hK with h1 | h2
        · exact hpe ▸ h1
        · exact absurd h2 hnotKD
      · intro hmm
        have hnotKD : nm ∉ ((list_backups st).drop keep_count).map Prod.fst :=
          hdisj hmm
        have hKmem : nm ∈ (list_backups st).map Prod.fst := by
          rw [hsplit]
          exact List.mem_append_left _ hmm
        rcases List.mem_map.mp (hkeysperm.mem_iff.mp hKmem) with ⟨p, hp, hpe⟩
        refine List.mem_map.mpr ⟨p, List.mem_filter.mpr ⟨hp, (hpred p).mpr ?_⟩, hpe⟩
        rw [hpe]
        exact hnotKD

/-- C8 (witness): a two-entry index (already in descending-timestamp
order), `keep_count = 1` and an always-succeeding delete oracle: exactly
one backup is deleted. -/
theorem C8_witness :
    (cleanup_old_backups (fun _ => true)
      ⟨[("n2", ⟨"1.0", "t2", [], []⟩), ("n1", ⟨"1.0", "t1", [], []⟩)],
       [("n2", ⟨"1.0", "t2", [], []⟩), ("n1", ⟨"1.0", "t1", [], []⟩)]⟩ 1).2 = 1 := by
  have h := (C8_retention (fun _ => true)
    ⟨[("n2", ⟨"1.0", "t2", [], []⟩), ("n1", ⟨"1.0", "t1", [], []⟩)],
     [("n2", ⟨"1.0", "t2", [], []⟩), ("n1", ⟨"1.0", "t1", [], []⟩)]⟩ 1 (by decide)).2.1
  have hs : list_backups
      ⟨[("n2", ⟨"1.0", "t2", [], []⟩), ("n1", ⟨"1.0", "t1", [], []⟩)],
       [("n2", ⟨"1.0", "t2", [], []⟩), ("n1", ⟨"1.0", "t1", [], []⟩)]⟩ =
      [("n2", ⟨"1.0", "t2", [], []⟩), ("n1", ⟨"1.0", "t1", [], []⟩)] :=
    List.mergeSort_of_sorted (by decide)
  rw [h, hs]
  rfl

end NV
